import Mathlib

/-!
Verification of the contact-record merge engine in `mergefiles.py`
(repository ExtractContactInfo).

The Python code is shallowly embedded: pandas cells are `Option String`
(`none` models Python `None`/missing, `some ""` models the empty string),
a dataframe row of the merged table is a `Record`, the merged table is a
`Table` (a list of records, in row order), and the fallible operations
return `Except PyError`.  Python string operations are modelled as
structural functions over `String.data` so that every definition is
executable and kernel-reducible.
-/

namespace ExtractContactInfo

/-- Python `s.lower()` (ASCII case folding suffices for the inputs involved). -/
def lowerStr (s : String) : String :=
  String.mk (s.data.map Char.toLower)

/-- Python `s.strip()` : remove whitespace from both ends. -/
def stripWS (s : String) : String :=
  String.mk (((s.data.dropWhile Char.isWhitespace).reverse.dropWhile
    Char.isWhitespace).reverse)

/-- Python `s.strip(cs)` : remove any of the characters `cs` from both ends. -/
def stripChars (cs : List Char) (s : String) : String :=
  String.mk (((s.data.dropWhile cs.contains).reverse.dropWhile cs.contains).reverse)

/-- Python slicing `s[:n]`. -/
def strTake (n : Nat) (s : String) : String :=
  String.mk (s.data.take n)

/-- Python slicing `s[n:]`. -/
def strDrop (n : Nat) (s : String) : String :=
  String.mk (s.data.drop n)

/-- Python `re.sub(r"\D", "", s)` : keep only the digit characters. -/
def stripNonDigits (s : String) : String :=
  String.mk (s.data.filter Char.isDigit)

/-- Python `s.count(c)` for a single-character needle. -/
def countChar (c : Char) (s : String) : Nat :=
  s.data.count c

/-- Python `s.replace(a, b)` for a single-character pattern and replacement
(the only form used by the source, namely `.replace("1", "2")`). -/
def replaceChar (a b : Char) (s : String) : String :=
  String.mk (s.data.map (fun c => if c = a then b else c))

/-- Does the list start with the given list?  Helper for substring search. -/
def startsWithL : List Char → List Char → Bool
  | [], _ => true
  | _ :: _, [] => false
  | a :: as, b :: bs => (a == b) && startsWithL as bs

/-- Substring search on character lists. -/
def containsSubL (needle : List Char) : List Char → Bool
  | [] => needle.isEmpty
  | c :: t => startsWithL needle (c :: t) || containsSubL needle t

/-- Python `needle in hay` on strings. -/
def strContains (needle hay : String) : Bool :=
  containsSubL needle.data hay.data

/-- Python `s.split(" ")` on character lists: split at every space, keeping
empty pieces, so the result is always non-empty. -/
def splitSp : List Char → List (List Char)
  | [] => [[]]
  | c :: rest =>
    match splitSp rest with
    | [] => [[c]]
    | h :: t => if c = ' ' then [] :: h :: t else (c :: h) :: t

/-- Python `s.split(" ")`. -/
def splitOnSpace (s : String) : List String :=
  (splitSp s.data).map String.mk

/-- Python truthiness of an optional string cell: `None` and `""` are falsy. -/
def truthy : Option String → Bool
  | none => false
  | some s => !(s == "")

/-- Python exceptions raised by the embedded code. -/
inductive PyError where
  | keyError (key : String)
  | valueError (msg : String)
deriving DecidableEq, Repr

deriving instance DecidableEq for Except

/-!  `format_phone` (mergefiles.py lines 76-86).  -/

/-- Embeds `format_phone`: strip non-digits; empty result gives `""`,
otherwise join the slices `[:3]`, `[3:6]`, `[6:]` with hyphens. -/
def format_phone (phone : String) : String :=
  let formatted := stripNonDigits phone
  if formatted = "" then ""
  else strTake 3 formatted ++ "-" ++ strTake 3 (strDrop 3 formatted) ++ "-" ++
    strDrop 6 formatted

/-- Restatement of the spec contract for the phone formatter, written from the
spec words (digit substrings `[0:3]`, `[3:6]`, `[6:]` of the digit string,
joined by hyphens; empty string when no digits remain). -/
def formatPhoneSpec (raw : String) : String :=
  let digits := raw.data.filter Char.isDigit
  if digits.isEmpty then ""
  else String.mk (digits.take 3) ++ "-" ++ String.mk ((digits.drop 3).take 3)
    ++ "-" ++ String.mk (digits.drop 6)

/-!  `unify_phone` (mergefiles.py lines 88-109).  The claims concern the cell
transformation, so a row is a phone cell plus an opaque payload `rest`
standing for all other fields.  -/

/-- One dataframe row as seen by `unify_phone`: the phone cell and the
remaining fields. -/
structure PhoneRow (α : Type) where
  phone : String
  rest : α
deriving DecidableEq, Repr

/-- Embeds the cell transformation of `unify_phone`: rows whose raw phone cell
has more than one `(` are copied with the digits of `raw[15:]` as phone; every
original row's phone is truncated to `raw[:15]`; the copies are appended after
all original rows and every phone cell then goes through `format_phone`. -/
def unify_phone {α : Type} (rows : List (PhoneRow α)) : List (PhoneRow α) :=
  let twonums := rows.filter (fun r => decide (1 < countChar '(' r.phone))
  let df2 := twonums.map (fun r => { r with phone := stripNonDigits (strDrop 15 r.phone) })
  let df := rows.map (fun r => { r with phone := strTake 15 r.phone })
  (df ++ df2).map (fun r => { r with phone := format_phone r.phone })

/-!  The merged table (`Table` class, mergefiles.py lines 157-233).  -/

/-- One row of the merged table; fields follow the `COLUMNS` list:
Name - First, Name - Last, Email Address, Phone Number, Mailing Address,
City, State, Zip, Alternate name, Alt email, Alt phone. -/
structure Record where
  first : String
  last : String
  email : Option String
  phone : Option String
  address : Option String
  city : Option String
  state : Option String
  zip : Option String
  altName : Option String
  altEmail : Option String
  altPhone : Option String
deriving DecidableEq, Repr

instance : Inhabited Record :=
  ⟨⟨"", "", none, none, none, none, none, none, none, none, none⟩⟩

/-- The merged table: the rows of `Table.data` in order. -/
structure Table where
  records : List Record
deriving DecidableEq, Repr

/-- The row mask of `Table.add`: case-insensitive equality of both name
columns against the call's `first` and `last` (no whitespace trimming). -/
def keyMatches (first last : String) (r : Record) : Bool :=
  (lowerStr r.first == lowerStr first) && (lowerStr r.last == lowerStr last)

/-- The conflict message printed by the email block of `Table.add`. -/
def emailConflictMsg (first last : String) (email : Option String) : String :=
  "Two emails already exist for " ++ first ++ " " ++ last ++ ", cannot add " ++
    email.getD ""

/-- The conflict message printed by the phone block of `Table.add`. -/
def phoneConflictMsg (first last : String) (phone : Option String) : String :=
  "Two phone numbers already exist for " ++ first ++ " " ++ last ++
    ", cannot add " ++ phone.getD ""

/-- The slot-merge step of `Table.add`, written once for both contact
channels (the email block at lines 203-213 and the phone block at lines
216-226 are textually parallel): given the current primary cell, the current
alternate cell and the incoming value, return the updated pair of cells and
the conflict messages printed. -/
def mergeSlot (primaryCell altCell v : Option String) (msg : String) :
    (Option String × Option String) × List String :=
  if truthy v then
    if truthy primaryCell = false then ((v, altCell), [])
    else if primaryCell ≠ v then
      if altCell = none then ((primaryCell, v), [])
      else if altCell ≠ v then ((primaryCell, altCell), [msg])
      else ((primaryCell, altCell), [])
    else ((primaryCell, altCell), [])
  else ((primaryCell, altCell), [])

/-- The update applied by `Table.add` to the single matching record
(mergefiles.py lines 203-233): the email block, the phone block, then the
address block, returning the updated record and the printed conflict messages
in print order.  The email block writes only the two email columns and the
phone block reads only the two phone columns, so composing the two
`mergeSlot` results on disjoint fields matches the source's sequential
in-place updates. -/
def mergeInto (r : Record) (first last : String)
    (email phone address city state zipcode : Option String) :
    Record × List String :=
  let eRes := mergeSlot r.email r.altEmail email (emailConflictMsg first last email)
  let pRes := mergeSlot r.phone r.altPhone phone (phoneConflictMsg first last phone)
  let r2 := { r with email := eRes.1.1, altEmail := eRes.1.2,
                     phone := pRes.1.1, altPhone := pRes.1.2 }
  let r3 :=
    if truthy address then
      { r2 with address := address, city := city, state := state, zip := zipcode }
    else r2
  (r3, eRes.2 ++ pRes.2)

/-- The fresh record appended by `Table.add` when no existing row matches:
name and contact fields from the call, the three alternate columns `None`. -/
def newRecord (first last : String)
    (email phone address city state zipcode : Option String) : Record :=
  { first := first, last := last, email := email, phone := phone,
    address := address, city := city, state := state, zip := zipcode,
    altName := none, altEmail := none, altPhone := none }

/-- Embeds `Table.add` (mergefiles.py lines 181-233).  Zero matches append a
fresh record; more than one match raises `ValueError`; exactly one match is
updated in place via `mergeInto`.  The returned list holds the printed
conflict messages of the call. -/
def Table.add (t : Table) (first last : String)
    (email phone address city state zipcode : Option String) :
    Except PyError (Table × List String) :=
  if t.records.countP (keyMatches first last) = 0 then
    .ok (⟨t.records ++ [newRecord first last email phone address city state zipcode]⟩, [])
  else if 1 < t.records.countP (keyMatches first last) then
    .error (.valueError ("multiple entries exist for " ++ first ++ " " ++ last))
  else
    let rowi := t.records.findIdx (keyMatches first last)
    let res := mergeInto (t.records.getD rowi default) first last
      email phone address city state zipcode
    .ok (⟨t.records.set rowi res.1⟩, res.2)

/-!  Post-processing (mergefiles.py lines 279-283): `""` is first turned into
`NaN`, then rows whose columns `2:` are all `NaN` are dropped, then rows whose
two name columns are both `NaN` are dropped.  -/

/-- A cell that `replace("", nan)` followed by `dropna` counts as missing:
`None` or the empty string. -/
def blankCell : Option String → Bool
  | none => true
  | some s => s == ""

/-- All columns other than the two name columns are blank. -/
def allContactBlank (r : Record) : Bool :=
  blankCell r.email && blankCell r.phone && blankCell r.address &&
  blankCell r.city && blankCell r.state && blankCell r.zip &&
  blankCell r.altName && blankCell r.altEmail && blankCell r.altPhone

/-- Embeds the row-dropping pass of `main`: drop rows whose columns `2:` are
all missing, then drop rows whose two name columns are both missing. -/
def postProcess (rs : List Record) : List Record :=
  let rs1 := rs.filter (fun r => !(allContactBlank r))
  rs1.filter (fun r => !((r.first == "") && (r.last == "")))

/-!  `add_addresses` (mergefiles.py lines 121-154).  A normalized input row is
an association list from column name to cell value (cells are plain strings
after `fillna("")`); column names are assumed unique, as in a pandas Series
index.  The Python iteration over the set `address_names` is modelled in
first-occurrence order of the header; which error surfaces may depend on that
order, but whether the extraction succeeds does not.  -/

/-- A normalized input row: column name to cell value. -/
abbrev Row : Type := List (String × String)

/-- The column names of a row, in order. -/
def rowKeys (row : Row) : List String :=
  row.map Prod.fst

/-- Python `row[k]`: the cell under label `k`, or a `KeyError`. -/
def rowGet (row : Row) (k : String) : Except PyError String :=
  match List.lookup k row with
  | some v => .ok v
  | none => .error (.keyError k)

/-- Python `row[k] = v`: overwrite the cell under an existing label, or append
a new label at the end. -/
def rowSet : Row → String → String → Row
  | [], k, v => [(k, v)]
  | (k0, v0) :: rest, k, v =>
    if k0 == k then (k0, v) :: rest else (k0, v0) :: rowSet rest k v

/-- Does the row carry the label? -/
def hasKey (row : Row) (k : String) : Bool :=
  (List.lookup k row).isSome

/-- The `address_parts` list of `add_addresses`. -/
def address_parts : List String :=
  ["address", "city", "state", "zipcode"]

/-- The first loop of `add_addresses`: for every address column containing a
`1`, look up the column and its companion (the name with `1` replaced by `2`,
raising `KeyError` when absent), store their space-joined concatenation under
the name stripped of surrounding spaces and `1`s, and record the stripped
name in the add-set and both originals in the remove-set. -/
def combineLines : List String → Row → Except PyError (Row × List String × List String)
  | [], row => .ok (row, [], [])
  | n :: rest, row =>
    if strContains "1" n then
      match rowGet row n with
      | .error e => .error e
      | .ok v1 =>
        match rowGet row (replaceChar '1' '2' n) with
        | .error e => .error e
        | .ok v2 =>
          match combineLines rest (rowSet row (stripChars [' ', '1'] n) (v1 ++ " " ++ v2)) with
          | .error e => .error e
          | .ok (row2, addL, removeL) =>
            .ok (row2, stripChars [' ', '1'] n :: addL,
              n :: replaceChar '1' '2' n :: removeL)
    else combineLines rest row

/-- The column looked up for address part `ap` of group `g`: unqualified when
the group name is a single token, else the group's first token followed by a
space and the part name. -/
def groupKey (g ap : String) : String :=
  if (splitOnSpace g).length = 1 then ap
  else (splitOnSpace g).headD "" ++ " " ++ ap

/-- The four columns the second loop of `add_addresses` reads for group `g`. -/
def groupCols (g : String) : List String :=
  address_parts.map (groupKey g)

/-- One iteration of the second loop of `add_addresses`: read the four address
parts of the group (raising `KeyError` when a column is absent) and feed them
to `Table.add` with no email and no phone. -/
def emitGroup (row : Row) (first last g : String) (t : Table) :
    Except PyError (Table × List String) :=
  match rowGet row (groupKey g "address") with
  | .error e => .error e
  | .ok a =>
    match rowGet row (groupKey g "city") with
    | .error e => .error e
    | .ok c =>
      match rowGet row (groupKey g "state") with
      | .error e => .error e
      | .ok s =>
        match rowGet row (groupKey g "zipcode") with
        | .error e => .error e
        | .ok z => t.add first last none none (some a) (some c) (some s) (some z)

/-- The second loop of `add_addresses`, accumulating the table and the
printed conflict messages across the groups. -/
def emitGroups (row : Row) (first last : String) :
    List String → Table → List String → Except PyError (Table × List String)
  | [], t, msgs => .ok (t, msgs)
  | g :: gs, t, msgs =>
    match emitGroup row first last g t with
    | .error e => .error e
    | .ok (t2, m2) => emitGroups row first last gs t2 (msgs ++ m2)

/-- Embeds `add_addresses`: read the two name cells, discover the address
columns, combine the line-1/line-2 pairs, then emit one `Table.add` per
remaining address group (the set difference and union of the Python sets are
modelled as order-preserving list operations). -/
def add_addresses (row : Row) (t : Table) : Except PyError (Table × List String) :=
  match rowGet row "first name" with
  | .error e => .error e
  | .ok first =>
    match rowGet row "last name" with
    | .error e => .error e
    | .ok last =>
      match combineLines ((rowKeys row).filter (fun x => strContains "address" x)) row with
      | .error e => .error e
      | .ok (row2, addL, removeL) =>
        emitGroups row2 first last
          (((rowKeys row).filter (fun x => strContains "address" x)).filter
              (fun x => !(removeL.contains x)) ++
            (addL.filter (fun x =>
              !((((rowKeys row).filter (fun x => strContains "address" x)).filter
                (fun x => !(removeL.contains x))).contains x))).dedup)
          t []

/-- The address columns of the row that contain a `1` and therefore trigger
the line-combination step. -/
def onesOf (row : Row) : List String :=
  ((rowKeys row).filter (fun x => strContains "address" x)).filter
    (fun n => strContains "1" n)

/-- The column names available to the second loop: the row's own columns plus
the stripped names added by the line-combination step. -/
def combinedKeys (row : Row) : List String :=
  rowKeys row ++ (onesOf row).map (stripChars [' ', '1'])

/-- The address groups the second loop iterates over: address columns not
consumed by the line-combination step, then the freshly added stripped names. -/
def groupsOf (row : Row) : List String :=
  let names := (rowKeys row).filter (fun x => strContains "address" x)
  let ones := names.filter (fun n => strContains "1" n)
  let removeL := ones.flatMap (fun n => [n, replaceChar '1' '2' n])
  let remaining := names.filter (fun x => !(removeL.contains x))
  remaining ++ ((ones.map (stripChars [' ', '1'])).filter
    (fun x => !(remaining.contains x))).dedup

/-- The column-completeness precondition of the claim: every address column
containing a `1` has its companion column (the name with `1` replaced by `2`)
in the row, and every discovered address group finds its four (prefixed or
unqualified) part columns among the row's columns extended by the combined
street columns. -/
def addressComplete (row : Row) : Bool :=
  (onesOf row).all (fun n => hasKey row (replaceChar '1' '2' n)) &&
  (groupsOf row).all (fun g => (groupCols g).all (fun k => (combinedKeys row).contains k))

/-!  General list helpers used by the proofs.  -/

theorem set_append_len {α : Type} (l : List α) (a b : α) :
    (l ++ [a]).set l.length b = l ++ [b] := by
  induction l with
  | nil => rfl
  | cons x xs ih => simp [List.set, ih]

theorem set_getD_self {α : Type} :
    ∀ (l : List α) (i : Nat) (d : α), l.set i (l.getD i d) = l
  | [], _, _ => rfl
  | _ :: _, 0, _ => rfl
  | x :: xs, i + 1, d => by
    simpa [List.set, List.getD_cons_succ] using set_getD_self xs i d

theorem findIdx_append_false {α : Type} (p : α → Bool) (l1 l2 : List α)
    (h : ∀ x ∈ l1, p x = false) :
    (l1 ++ l2).findIdx p = l1.length + l2.findIdx p := by
  induction l1 with
  | nil => simp
  | cons x xs ih =>
    have hx : p x = false := h x (by simp)
    have ih2 := ih (fun y hy => h y (by simp [hy]))
    simp [List.findIdx_cons, hx, ih2]
    omega

/-!  Branch lemmas for `Table.add`.  -/

theorem add_of_no_match (t : Table) (first last : String)
    (e p a c s z : Option String)
    (h : t.records.countP (keyMatches first last) = 0) :
    t.add first last e p a c s z =
      .ok (⟨t.records ++ [newRecord first last e p a c s z]⟩, []) := by
  simp [Table.add, h]

theorem add_of_many_matches (t : Table) (first last : String)
    (e p a c s z : Option String)
    (h : 1 < t.records.countP (keyMatches first last)) :
    t.add first last e p a c s z =
      .error (.valueError ("multiple entries exist for " ++ first ++ " " ++ last)) := by
  unfold Table.add
  rw [if_neg (by omega), if_pos h]

theorem add_of_one_match (t : Table) (first last : String)
    (e p a c s z : Option String)
    (h : t.records.countP (keyMatches first last) = 1) :
    t.add first last e p a c s z =
      .ok (⟨t.records.set (t.records.findIdx (keyMatches first last))
          (mergeInto (t.records.getD (t.records.findIdx (keyMatches first last)) default)
            first last e p a c s z).1⟩,
        (mergeInto (t.records.getD (t.records.findIdx (keyMatches first last)) default)
          first last e p a c s z).2) := by
  unfold Table.add
  rw [if_neg (by omega), if_neg (by omega)]

theorem getD_set_self {α : Type} (l : List α) (i : Nat) (a d : α) (h : i < l.length) :
    (l.set i a).getD i d = a := by
  induction l generalizing i with
  | nil => simp at h
  | cons x xs ih =>
    cases i with
    | zero => rfl
    | succ n =>
      simp only [List.set, List.getD_cons_succ]
      exact ih n (by simpa using h)

theorem getD_set_ne {α : Type} (l : List α) (i j : Nat) (a d : α) (h : i ≠ j) :
    (l.set i a).getD j d = l.getD j d := by
  induction l generalizing i j with
  | nil => simp [List.set]
  | cons x xs ih =>
    cases i with
    | zero =>
      cases j with
      | zero => exact absurd rfl h
      | succ m => rfl
    | succ n =>
      cases j with
      | zero => rfl
      | succ m =>
        simp only [List.set, List.getD_cons_succ]
        exact ih n m (by omega)

theorem exists_match_of_countP_one {α : Type} {p : α → Bool} {l : List α}
    (h : l.countP p = 1) : ∃ x ∈ l, p x := by
  by_contra hc
  have h0 : l.countP p = 0 := List.countP_eq_zero.mpr (by simpa using hc)
  omega

/-!  Facts about `mergeSlot`.  -/

theorem mergeSlot_keeps (cur alt v : Option String) (msg : String) :
    (truthy cur = true → (mergeSlot cur alt v msg).1.1 = cur) ∧
    (truthy alt = true → (mergeSlot cur alt v msg).1.2 = alt) := by
  unfold mergeSlot
  split_ifs <;> simp_all [truthy]

theorem mergeSlot_absent (cur alt v : Option String) (msg : String)
    (h : truthy v = false) :
    mergeSlot cur alt v msg = ((cur, alt), []) := by
  simp [mergeSlot, h]

theorem mergeSlot_held (cur alt v : Option String) (msg : String)
    (h : truthy v = false ∨ cur = v ∨ (truthy cur = true ∧ alt = v)) :
    mergeSlot cur alt v msg = ((cur, alt), []) := by
  unfold mergeSlot
  rcases h with h | h | ⟨h1, h2⟩ <;> split_ifs <;> simp_all [truthy]

theorem mergeSlot_fill_alt (cur alt v : Option String) (msg : String)
    (hv : truthy v = true) (hc : truthy cur = true) (hne : cur ≠ v)
    (ha : alt = none) :
    mergeSlot cur alt v msg = ((cur, v), []) := by
  simp [mergeSlot, hv, hc, hne, ha]

theorem mergeSlot_conflict (cur alt v : Option String) (msg : String)
    (hv : truthy v = true) (hc : truthy cur = true) (hne : cur ≠ v)
    (ha : alt ≠ none) (ha2 : alt ≠ v) :
    mergeSlot cur alt v msg = ((cur, alt), [msg]) := by
  simp [mergeSlot, hv, hc, hne, ha, ha2]

/-!  Projections of `mergeInto`.  -/

theorem mergeInto_first (r : Record) (f l : String) (e p a c s z : Option String) :
    (mergeInto r f l e p a c s z).1.first = r.first := by
  simp only [mergeInto]
  split <;> rfl

theorem mergeInto_last (r : Record) (f l : String) (e p a c s z : Option String) :
    (mergeInto r f l e p a c s z).1.last = r.last := by
  simp only [mergeInto]
  split <;> rfl

theorem mergeInto_email (r : Record) (f l : String) (e p a c s z : Option String) :
    (mergeInto r f l e p a c s z).1.email =
      (mergeSlot r.email r.altEmail e (emailConflictMsg f l e)).1.1 := by
  simp only [mergeInto]
  split <;> rfl

theorem mergeInto_altEmail (r : Record) (f l : String) (e p a c s z : Option String) :
    (mergeInto r f l e p a c s z).1.altEmail =
      (mergeSlot r.email r.altEmail e (emailConflictMsg f l e)).1.2 := by
  simp only [mergeInto]
  split <;> rfl

theorem mergeInto_phone (r : Record) (f l : String) (e p a c s z : Option String) :
    (mergeInto r f l e p a c s z).1.phone =
      (mergeSlot r.phone r.altPhone p (phoneConflictMsg f l p)).1.1 := by
  simp only [mergeInto]
  split <;> rfl

theorem mergeInto_altPhone (r : Record) (f l : String) (e p a c s z : Option String) :
    (mergeInto r f l e p a c s z).1.altPhone =
      (mergeSlot r.phone r.altPhone p (phoneConflictMsg f l p)).1.2 := by
  simp only [mergeInto]
  split <;> rfl

theorem mergeInto_noop (r : Record) (f l : String) (e p : Option String)
    (he : truthy e = false ∨ r.email = e ∨ (truthy r.email = true ∧ r.altEmail = e))
    (hp : truthy p = false ∨ r.phone = p ∨ (truthy r.phone = true ∧ r.altPhone = p)) :
    mergeInto r f l e p none none none none = (r, []) := by
  simp only [mergeInto, mergeSlot_held _ _ _ _ he, mergeSlot_held _ _ _ _ hp]
  simp [truthy]

/-!  Row-lookup facts and success conditions for `add_addresses`.  -/

theorem hasKey_iff_mem (row : Row) (k : String) :
    hasKey row k = true ↔ k ∈ rowKeys row := by
  simp only [hasKey, List.lookup_isSome_iff, rowKeys, List.mem_map, beq_iff_eq]
  constructor
  · rintro ⟨p, hp, h⟩
    exact ⟨p, hp, h.symm⟩
  · rintro ⟨p, hp, h⟩
    exact ⟨p, hp, h.symm⟩

theorem rowKeys_rowSet (row : Row) (k v k2 : String) :
    k2 ∈ rowKeys (rowSet row k v) ↔ (k2 = k ∨ k2 ∈ rowKeys row) := by
  induction row with
  | nil => simp [rowSet, rowKeys]
  | cons kv rest ih =>
    obtain ⟨k0, v0⟩ := kv
    by_cases h : k0 = k
    · subst h
      simp [rowSet, rowKeys]
    · simp only [rowSet, show (k0 == k) = false from by simpa using h, if_neg,
        Bool.false_eq_true, not_false_iff]
      simp only [rowKeys, List.map_cons, List.mem_cons] at ih ⊢
      rw [ih]
      tauto

theorem hasKey_rowSet (row : Row) (k v k2 : String) :
    hasKey (rowSet row k v) k2 = true ↔ (k2 = k ∨ hasKey row k2 = true) := by
  simp [hasKey_iff_mem, rowKeys_rowSet]

theorem rowGet_ok_of_hasKey (row : Row) (k : String) (h : hasKey row k = true) :
    ∃ v, rowGet row k = .ok v := by
  unfold rowGet
  cases hl : List.lookup k row with
  | none =>
    unfold hasKey at h
    rw [hl] at h
    simp at h
  | some v => exact ⟨v, rfl⟩

theorem rowGet_err_of_missing (row : Row) (k : String) (h : hasKey row k = false) :
    rowGet row k = .error (.keyError k) := by
  unfold rowGet
  cases hl : List.lookup k row with
  | none => rfl
  | some v =>
    unfold hasKey at h
    rw [hl] at h
    simp at h

theorem combineLines_ok (names : List String) (row : Row)
    (hmem : ∀ n ∈ names, hasKey row n = true)
    (hcomp : ∀ n ∈ names, strContains "1" n = true →
      hasKey row (replaceChar '1' '2' n) = true) :
    ∃ row2,
      combineLines names row = .ok (row2,
        (names.filter (fun n => strContains "1" n)).map (stripChars [' ', '1']),
        (names.filter (fun n => strContains "1" n)).flatMap
          (fun n => [n, replaceChar '1' '2' n])) ∧
      (∀ k, hasKey row2 k = true ↔
        (hasKey row k = true ∨
         k ∈ (names.filter (fun n => strContains "1" n)).map (stripChars [' ', '1']))) := by
  induction names generalizing row with
  | nil => exact ⟨row, rfl, by simp⟩
  | cons n rest ih =>
    by_cases hc : strContains "1" n = true
    · obtain ⟨v1, hv1⟩ := rowGet_ok_of_hasKey row n (hmem n (by simp))
      obtain ⟨v2, hv2⟩ := rowGet_ok_of_hasKey row _ (hcomp n (by simp) hc)
      have hmem1 : ∀ m ∈ rest,
          hasKey (rowSet row (stripChars [' ', '1'] n) (v1 ++ " " ++ v2)) m = true :=
        fun m hm => (hasKey_rowSet _ _ _ _).mpr (Or.inr (hmem m (by simp [hm])))
      have hcomp1 : ∀ m ∈ rest, strContains "1" m = true →
          hasKey (rowSet row (stripChars [' ', '1'] n) (v1 ++ " " ++ v2))
            (replaceChar '1' '2' m) = true :=
        fun m hm hcm => (hasKey_rowSet _ _ _ _).mpr (Or.inr (hcomp m (by simp [hm]) hcm))
      obtain ⟨row2, heq, hkeys⟩ := ih _ hmem1 hcomp1
      refine ⟨row2, ?_, ?_⟩
      · simp only [combineLines, hc, if_pos, hv1, hv2, heq]
        simp [hc]
      · intro k
        rw [hkeys k]
        rw [hasKey_rowSet]
        simp [hc]
        tauto
    · have hc2 : strContains "1" n = false := by simpa using hc
      obtain ⟨row2, heq, hkeys⟩ := ih row (fun m hm => hmem m (by simp [hm]))
        (fun m hm => hcomp m (by simp [hm]))
      refine ⟨row2, ?_, ?_⟩
      · simp only [combineLines, hc2, heq]
        simp [hc2]
      · intro k
        rw [hkeys k]
        simp [hc2]

theorem combineLines_err (names : List String) (row : Row)
    (hmem : ∀ n ∈ names, hasKey row n = true)
    (hdisj : ∀ n ∈ names, ∀ m ∈ names, strContains "1" n = true →
      strContains "1" m = true → replaceChar '1' '2' n ≠ stripChars [' ', '1'] m)
    (hbad : ∃ n ∈ names, strContains "1" n = true ∧
      hasKey row (replaceChar '1' '2' n) = false) :
    ∃ k, combineLines names row = .error (.keyError k) := by
  induction names generalizing row with
  | nil => simp at hbad
  | cons n rest ih =>
    by_cases hc : strContains "1" n = true
    · obtain ⟨v1, hv1⟩ := rowGet_ok_of_hasKey row n (hmem n (by simp))
      by_cases hcmp : hasKey row (replaceChar '1' '2' n) = true
      · obtain ⟨v2, hv2⟩ := rowGet_ok_of_hasKey row _ hcmp
        obtain ⟨m, hm, hcm, hbadm⟩ := hbad
        have hmrest : m ∈ rest := by
          rcases List.mem_cons.mp hm with h1 | h1
          · subst h1
            rw [hcmp] at hbadm
            simp at hbadm
          · exact h1
        have hmem1 : ∀ x ∈ rest,
            hasKey (rowSet row (stripChars [' ', '1'] n) (v1 ++ " " ++ v2)) x = true :=
          fun x hx => (hasKey_rowSet _ _ _ _).mpr (Or.inr (hmem x (by simp [hx])))
        have hdisj1 : ∀ x ∈ rest, ∀ y ∈ rest, strContains "1" x = true →
            strContains "1" y = true →
            replaceChar '1' '2' x ≠ stripChars [' ', '1'] y :=
          fun x hx y hy => hdisj x (by simp [hx]) y (by simp [hy])
        have hbad1 : hasKey (rowSet row (stripChars [' ', '1'] n) (v1 ++ " " ++ v2))
            (replaceChar '1' '2' m) = false := by
          rw [Bool.eq_false_iff]
          intro hcon
          rcases (hasKey_rowSet _ _ _ _).mp hcon with h1 | h1
          · exact hdisj m hm n (by simp) hcm hc h1
          · rw [h1] at hbadm
            simp at hbadm
        obtain ⟨k, hk⟩ := ih _ hmem1 hdisj1 ⟨m, hmrest, hcm, hbad1⟩
        exact ⟨k, by simp only [combineLines, hc, if_pos, hv1, hv2, hk]⟩
      · have herr := rowGet_err_of_missing row _ (by simpa using hcmp)
        exact ⟨replaceChar '1' '2' n, by simp only [combineLines, hc, if_pos, hv1, herr]⟩
    · have hc2 : strContains "1" n = false := by simpa using hc
      obtain ⟨m, hm, hcm, hbadm⟩ := hbad
      have hmrest : m ∈ rest := by
        rcases List.mem_cons.mp hm with h1 | h1
        · subst h1
          rw [hcm] at hc2
          simp at hc2
        · exact h1
      obtain ⟨k, hk⟩ := ih row (fun x hx => hmem x (by simp [hx]))
        (fun x hx y hy => hdisj x (by simp [hx]) y (by simp [hy]))
        ⟨m, hmrest, hcm, hbadm⟩
      exact ⟨k, by simp only [combineLines, hc2, hk]; simp [hc2, hk]⟩

theorem countP_set_eq {α : Type} (l : List α) (i : Nat) (a d : α) (p : α → Bool)
    (h : p a = p (l.getD i d)) : (l.set i a).countP p = l.countP p := by
  induction l generalizing i with
  | nil => simp
  | cons x xs ih =>
    cases i with
    | zero =>
      have hx : (x :: xs : List α).getD 0 d = x := rfl
      rw [hx] at h
      simp [List.set, List.countP_cons, h]
    | succ n =>
      simp only [List.set, List.countP_cons]
      rw [ih n (by simpa [List.getD_cons_succ] using h)]

theorem keyMatches_mergeInto (r : Record) (f l f2 l2 : String)
    (e p a c s z : Option String) :
    keyMatches f l (mergeInto r f2 l2 e p a c s z).1 = keyMatches f l r := by
  unfold keyMatches
  rw [mergeInto_first, mergeInto_last]

theorem add_ok_of_le_one (t : Table) (first last : String) (e p a c s z : Option String)
    (h : t.records.countP (keyMatches first last) ≤ 1) :
    ∃ t2 msgs, t.add first last e p a c s z = .ok (t2, msgs) ∧
      t2.records.countP (keyMatches first last) ≤ 1 := by
  by_cases h0 : t.records.countP (keyMatches first last) = 0
  · refine ⟨_, _, add_of_no_match _ _ _ _ _ _ _ _ _ h0, ?_⟩
    simp [List.countP_append, h0, List.countP_cons, keyMatches, newRecord]
  · have h1 : t.records.countP (keyMatches first last) = 1 := by omega
    refine ⟨_, _, add_of_one_match _ _ _ _ _ _ _ _ _ h1, ?_⟩
    rw [show (⟨t.records.set (t.records.findIdx (keyMatches first last))
        (mergeInto (t.records.getD (t.records.findIdx (keyMatches first last)) default)
          first last e p a c s z).1⟩ : Table).records =
      t.records.set (t.records.findIdx (keyMatches first last))
        (mergeInto (t.records.getD (t.records.findIdx (keyMatches first last)) default)
          first last e p a c s z).1 from rfl]
    rw [countP_set_eq _ _ _ default _ (keyMatches_mergeInto _ _ _ _ _ _ _ _ _ _ _)]
    omega

theorem emitGroup_ok (row : Row) (first last g : String) (t : Table)
    (hkeys : ∀ k ∈ groupCols g, hasKey row k = true)
    (hinv : t.records.countP (keyMatches first last) ≤ 1) :
    ∃ t2 msgs, emitGroup row first last g t = .ok (t2, msgs) ∧
      t2.records.countP (keyMatches first last) ≤ 1 := by
  obtain ⟨a, ha⟩ := rowGet_ok_of_hasKey row _
    (hkeys (groupKey g "address") (by simp [groupCols, address_parts]))
  obtain ⟨c, hc⟩ := rowGet_ok_of_hasKey row _
    (hkeys (groupKey g "city") (by simp [groupCols, address_parts]))
  obtain ⟨s, hs⟩ := rowGet_ok_of_hasKey row _
    (hkeys (groupKey g "state") (by simp [groupCols, address_parts]))
  obtain ⟨z, hz⟩ := rowGet_ok_of_hasKey row _
    (hkeys (groupKey g "zipcode") (by simp [groupCols, address_parts]))
  obtain ⟨t2, msgs, hadd, hinv2⟩ := add_ok_of_le_one t first last none none
    (some a) (some c) (some s) (some z) hinv
  exact ⟨t2, msgs, by simp only [emitGroup, ha, hc, hs, hz, hadd], hinv2⟩

theorem emitGroup_err (row : Row) (first last g : String) (t : Table)
    (hbad : ∃ k ∈ groupCols g, hasKey row k = false) :
    ∃ k, emitGroup row first last g t = .error (.keyError k) := by
  by_cases hA : hasKey row (groupKey g "address") = true
  · obtain ⟨a, ha⟩ := rowGet_ok_of_hasKey row _ hA
    by_cases hC : hasKey row (groupKey g "city") = true
    · obtain ⟨c, hc⟩ := rowGet_ok_of_hasKey row _ hC
      by_cases hS : hasKey row (groupKey g "state") = true
      · obtain ⟨s, hs⟩ := rowGet_ok_of_hasKey row _ hS
        by_cases hZ : hasKey row (groupKey g "zipcode") = true
        · exfalso
          obtain ⟨k, hk, hfalse⟩ := hbad
          simp only [groupCols, address_parts, List.map_cons, List.map_nil,
            List.mem_cons, List.not_mem_nil, or_false] at hk
          rcases hk with rfl | rfl | rfl | rfl
          · rw [hA] at hfalse; simp at hfalse
          · rw [hC] at hfalse; simp at hfalse
          · rw [hS] at hfalse; simp at hfalse
          · rw [hZ] at hfalse; simp at hfalse
        · exact ⟨groupKey g "zipcode", by
            simp only [emitGroup, ha, hc, hs,
              rowGet_err_of_missing row _ (by simpa using hZ)]⟩
      · exact ⟨groupKey g "state", by
          simp only [emitGroup, ha, hc,
            rowGet_err_of_missing row _ (by simpa using hS)]⟩
    · exact ⟨groupKey g "city", by
        simp only [emitGroup, ha,
          rowGet_err_of_missing row _ (by simpa using hC)]⟩
  · exact ⟨groupKey g "address", by
      simp only [emitGroup,
        rowGet_err_of_missing row _ (by simpa using hA)]⟩

theorem emitGroups_ok (row : Row) (first last : String) (gs : List String) :
    ∀ (t : Table) (msgs : List String),
    (∀ g ∈ gs, ∀ k ∈ groupCols g, hasKey row k = true) →
    t.records.countP (keyMatches first last) ≤ 1 →
    ∃ t2 msgs2, emitGroups row first last gs t msgs = .ok (t2, msgs2) := by
  induction gs with
  | nil => exact fun t msgs _ _ => ⟨t, msgs, rfl⟩
  | cons g gs ih =>
    intro t msgs hkeys hinv
    obtain ⟨t2, m2, hg, hinv2⟩ := emitGroup_ok row first last g t (hkeys g (by simp)) hinv
    obtain ⟨t3, m3, hgs⟩ := ih t2 (msgs ++ m2) (fun x hx => hkeys x (by simp [hx])) hinv2
    exact ⟨t3, m3, by simp only [emitGroups, hg, hgs]⟩

theorem emitGroups_err (row : Row) (first last : String) (gs : List String) :
    ∀ (t : Table) (msgs : List String),
    t.records.countP (keyMatches first last) ≤ 1 →
    (∃ g ∈ gs, ∃ k ∈ groupCols g, hasKey row k = false) →
    ∃ k, emitGroups row first last gs t msgs = .error (.keyError k) := by
  induction gs with
  | nil => intro t msgs _ hbad; simp at hbad
  | cons g gs ih =>
    intro t msgs hinv hbad
    by_cases hall : ∀ k ∈ groupCols g, hasKey row k = true
    · obtain ⟨t2, m2, hg, hinv2⟩ := emitGroup_ok row first last g t hall hinv
      obtain ⟨g2, hg2, k, hk, hkf⟩ := hbad
      have hg2rest : g2 ∈ gs := by
        rcases List.mem_cons.mp hg2 with h1 | h1
        · subst h1
          rw [hall k hk] at hkf
          simp at hkf
        · exact h1
      obtain ⟨k2, hk2⟩ := ih t2 (msgs ++ m2) hinv2 ⟨g2, hg2rest, k, hk, hkf⟩
      exact ⟨k2, by simp only [emitGroups, hg, hk2]⟩
    · push_neg at hall
      obtain ⟨k, hk, hkf⟩ := hall
      obtain ⟨k2, hk2⟩ := emitGroup_err row first last g t
        ⟨k, hk, by simpa using hkf⟩
      exact ⟨k2, by simp only [emitGroups, hk2]⟩

/-!  Claims C5, C6 and C9.  -/

/-- C6 counterexample: the claim asserts that the phone format function maps
the input string of an open parenthesis, 555, close parenthesis, space,
123-4567, space, ext, space, 2 to 555-123-4567; in fact the trailing
extension digit 2 survives the digit filter, so the output is 555-123-45672. -/
theorem C6_counterexample :
    format_phone "(555) 123-4567 ext 2" = "555-123-45672" ∧
    "555-123-45672" ≠ "555-123-4567" := by decide

/-- C6 amended: for every input string the phone format function removes every
non-digit character, returns the empty string when no digits remain, and
otherwise joins the digit substrings `[0:3]`, `[3:6]` and `[6:]` with hyphens,
deterministically and without validating the digit count; the cited example
input formats to 555-123-45672 (not 555-123-4567 as claimed). -/
theorem C6_format_phone_amended :
    (∀ s : String, format_phone s = formatPhoneSpec s) ∧
    format_phone "(555) 123-4567 ext 2" = "555-123-45672" := by
  refine ⟨fun s => ?_, by decide⟩
  simp only [format_phone, formatPhoneSpec, stripNonDigits, strTake, strDrop]
  by_cases h : s.data.filter Char.isDigit = []
  · simp [h]
  · rw [if_neg (fun hc => h (congrArg String.data hc)), if_neg (by simp [h])]

/-- C5 counterexample: the claim asserts that a row whose raw phone cell has
at most one open parenthesis yields the format function applied to the entire
raw string; in fact `unify_phone` truncates every row's phone cell to its
first 15 characters, so an 19-digit cell loses its last 4 digits. -/
theorem C5_counterexample :
    unify_phone ([⟨"0123456789012345678", 0⟩] : List (PhoneRow Nat)) =
      [⟨"012-345-678901234", 0⟩] ∧
    format_phone "0123456789012345678" = "012-345-6789012345678" ∧
    countChar '(' "0123456789012345678" ≤ 1 ∧
    "012-345-678901234" ≠ "012-345-6789012345678" := by decide

/-- C5 amended: rows whose raw phone cell contains more than one open
parenthesis are exactly the duplicated ones, the synthetic copy carrying the
digits of characters 15 onward with all other fields unchanged and appended
after the originals; every original row (with any number of parentheses)
keeps the number formed from characters `[0:15)` of the raw string, and each
resulting cell is then formatted. -/
theorem C5_unify_phone_amended {α : Type} (rows : List (PhoneRow α)) :
    unify_phone rows =
      rows.map (fun r => { r with phone := format_phone (strTake 15 r.phone) }) ++
      (rows.filter (fun r => decide (1 < countChar '(' r.phone))).map
        (fun r => { r with phone := format_phone (stripNonDigits (strDrop 15 r.phone)) }) := by
  simp only [unify_phone, List.map_append, List.map_map]
  rfl

/-- C9 counterexample: the claim asserts that every record with a non-empty
email field is retained by the post-processing pass; a record whose two name
columns are both empty is dropped by the second `dropna` even though its email
field is non-empty. -/
theorem C9_counterexample :
    postProcess [⟨"", "", some "a@x.com", none, none, none, none, none, none,
      none, none⟩] = [] ∧
    truthy (some "a@x.com") = true := by decide

/-- C9 amended: the post-processing pass removes precisely the records whose
fields other than the two name columns are all empty, together with the
records whose first and last name are both empty; every other record is
retained. -/
theorem C9_postProcess_amended (rs : List Record) :
    postProcess rs = rs.filter
      (fun r => !(allContactBlank r) && !((r.first == "") && (r.last == ""))) := by
  simp [postProcess, List.filter_filter, Bool.and_comm]

/-!  Claims C1 to C4, C7 and C8, about `Table.add`.  -/

/-- C1: for an identity key with no prior record, three successive `add`
calls carrying pairwise distinct non-empty emails (and likewise phones) fill
the slots in primary-then-alternate order: the first email becomes the
primary email cell, the second becomes the alternate, and the third is
reported as a non-fatal conflict message naming the person and the value,
leaving the table unchanged (the value is not stored in any slot). -/
theorem C1_slot_filling_email_phone (t : Table) (first last e1 e2 e3 p1 p2 p3 : String)
    (h0 : t.records.countP (keyMatches first last) = 0)
    (he1 : e1 ≠ "") (he2 : e2 ≠ "") (he3 : e3 ≠ "")
    (hp1 : p1 ≠ "") (hp2 : p2 ≠ "") (hp3 : p3 ≠ "")
    (he21 : e2 ≠ e1) (he31 : e3 ≠ e1) (he32 : e3 ≠ e2)
    (hp21 : p2 ≠ p1) (hp31 : p3 ≠ p1) (hp32 : p3 ≠ p2) :
    ∃ t1 t2 r2,
      t.add first last (some e1) (some p1) none none none none = .ok (t1, []) ∧
      t1.add first last (some e2) (some p2) none none none none = .ok (t2, []) ∧
      t2.records = t.records ++ [r2] ∧
      r2.email = some e1 ∧ r2.altEmail = some e2 ∧
      r2.phone = some p1 ∧ r2.altPhone = some p2 ∧
      t2.add first last (some e3) (some p3) none none none none =
        .ok (t2, ["Two emails already exist for " ++ first ++ " " ++ last ++
                    ", cannot add " ++ e3,
                  "Two phone numbers already exist for " ++ first ++ " " ++ last ++
                    ", cannot add " ++ p3]) := by
  have hAll : ∀ r ∈ t.records, keyMatches first last r = false := by
    intro r hr
    have := List.countP_eq_zero.mp h0 r hr
    simpa using this
  have h1 := add_of_no_match t first last (some e1) (some p1) none none none none h0
  set new := newRecord first last (some e1) (some p1) none none none none with hnew
  have hknew : keyMatches first last new = true := by
    simp [keyMatches, hnew, newRecord]
  have hc1 : (t.records ++ [new]).countP (keyMatches first last) = 1 := by
    simp [List.countP_append, h0, List.countP_cons, hknew]
  have hidx1 : (t.records ++ [new]).findIdx (keyMatches first last) = t.records.length := by
    rw [findIdx_append_false _ _ _ hAll]
    simp [List.findIdx_cons, hknew]
  have hget1 : (t.records ++ [new]).getD t.records.length default = new := by
    rw [List.getD_append_right _ _ _ _ (le_refl _)]
    simp
  have hm2 : mergeInto new first last (some e2) (some p2) none none none none =
      ({ new with altEmail := some e2, altPhone := some p2 }, []) := by
    unfold mergeInto
    rw [mergeSlot_fill_alt _ _ _ _ (by simp [truthy, he2])
        (by simp [hnew, newRecord, truthy, he1])
        (by simp [hnew, newRecord]; exact fun hh => he21 hh.symm)
        (by simp [hnew, newRecord])]
    rw [mergeSlot_fill_alt _ _ _ _ (by simp [truthy, hp2])
        (by simp [hnew, newRecord, truthy, hp1])
        (by simp [hnew, newRecord]; exact fun hh => hp21 hh.symm)
        (by simp [hnew, newRecord])]
    simp [truthy]
  have h2 := add_of_one_match ⟨t.records ++ [new]⟩ first last (some e2) (some p2)
    none none none none hc1
  rw [show (⟨t.records ++ [new]⟩ : Table).records = t.records ++ [new] from rfl] at h2
  rw [hidx1, hget1, hm2] at h2
  rw [show ((({ new with altEmail := some e2, altPhone := some p2 }, []) :
      Record × List String).1) = { new with altEmail := some e2, altPhone := some p2 }
    from rfl] at h2
  rw [set_append_len] at h2
  set r2 : Record := { new with altEmail := some e2, altPhone := some p2 } with hr2
  have hknew2 : keyMatches first last r2 = true := by
    simp [keyMatches, hr2, hnew, newRecord]
  have hc2 : (t.records ++ [r2]).countP (keyMatches first last) = 1 := by
    simp [List.countP_append, h0, List.countP_cons, hknew2]
  have hidx2 : (t.records ++ [r2]).findIdx (keyMatches first last) = t.records.length := by
    rw [findIdx_append_false _ _ _ hAll]
    simp [List.findIdx_cons, hknew2]
  have hget2 : (t.records ++ [r2]).getD t.records.length default = r2 := by
    rw [List.getD_append_right _ _ _ _ (le_refl _)]
    simp
  have hm3 : mergeInto r2 first last (some e3) (some p3) none none none none =
      (r2, ["Two emails already exist for " ++ first ++ " " ++ last ++
              ", cannot add " ++ e3,
            "Two phone numbers already exist for " ++ first ++ " " ++ last ++
              ", cannot add " ++ p3]) := by
    unfold mergeInto
    rw [mergeSlot_conflict _ _ _ _ (by simp [truthy, he3])
        (by simp [hr2, hnew, newRecord, truthy, he1])
        (by simp [hr2, hnew, newRecord]; exact fun hh => he31 hh.symm)
        (by simp [hr2, hnew, newRecord])
        (by simp [hr2, hnew, newRecord]; exact fun hh => he32 hh.symm)]
    rw [mergeSlot_conflict _ _ _ _ (by simp [truthy, hp3])
        (by simp [hr2, hnew, newRecord, truthy, hp1])
        (by simp [hr2, hnew, newRecord]; exact fun hh => hp31 hh.symm)
        (by simp [hr2, hnew, newRecord])
        (by simp [hr2, hnew, newRecord]; exact fun hh => hp32 hh.symm)]
    simp [truthy, emailConflictMsg, phoneConflictMsg]
  have h3 := add_of_one_match ⟨t.records ++ [r2]⟩ first last (some e3) (some p3)
    none none none none hc2
  rw [show (⟨t.records ++ [r2]⟩ : Table).records = t.records ++ [r2] from rfl] at h3
  rw [hidx2, hget2, hm3] at h3
  rw [show ((r2, ["Two emails already exist for " ++ first ++ " " ++ last ++
        ", cannot add " ++ e3,
      "Two phone numbers already exist for " ++ first ++ " " ++ last ++
        ", cannot add " ++ p3]) : Record × List String).1 = r2 from rfl] at h3
  rw [set_append_len] at h3
  refine ⟨⟨t.records ++ [new]⟩, ⟨t.records ++ [r2]⟩, r2, h1, h2, rfl, ?_, ?_, ?_, ?_, h3⟩
  · simp [hr2, hnew, newRecord]
  · simp [hr2, hnew, newRecord]
  · simp [hr2, hnew, newRecord]
  · simp [hr2, hnew, newRecord]

/-- C1 witness: the three-call scenario at a concrete identity and concrete
emails and phones. -/
theorem C1_witness :
    ∃ t1 t2 r2,
      (Table.mk []).add "John" "Smith" (some "a@x.com") (some "111") none none none none =
        .ok (t1, []) ∧
      t1.add "John" "Smith" (some "b@x.com") (some "222") none none none none =
        .ok (t2, []) ∧
      t2.records = [] ++ [r2] ∧
      r2.email = some "a@x.com" ∧ r2.altEmail = some "b@x.com" ∧
      r2.phone = some "111" ∧ r2.altPhone = some "222" ∧
      t2.add "John" "Smith" (some "c@x.com") (some "333") none none none none =
        .ok (t2, ["Two emails already exist for " ++ "John" ++ " " ++ "Smith" ++
                    ", cannot add " ++ "c@x.com",
                  "Two phone numbers already exist for " ++ "John" ++ " " ++ "Smith" ++
                    ", cannot add " ++ "333"]) :=
  C1_slot_filling_email_phone ⟨[]⟩ "John" "Smith" "a@x.com" "b@x.com" "c@x.com"
    "111" "222" "333" (by decide) (by decide) (by decide) (by decide) (by decide)
    (by decide) (by decide) (by decide) (by decide) (by decide) (by decide)
    (by decide) (by decide)

/-- C2 counterexample: the claim asserts that two `add` calls whose names are
equal after lowercasing and trimming surrounding whitespace merge into one
record; with a leading space in the first call's first name the names are
equal after trimming and lowercasing, yet the second call appends a second
record instead of merging. -/
theorem C2_counterexample :
    lowerStr (stripWS " John") = lowerStr (stripWS "John") ∧
    (Table.mk []).add " John" "Smith" (some "a@x.com") none none none none none =
      .ok (⟨[⟨" John", "Smith", some "a@x.com", none, none, none, none, none,
        none, none, none⟩]⟩, []) ∧
    (Table.mk [⟨" John", "Smith", some "a@x.com", none, none, none, none, none,
        none, none, none⟩]).add "John" "Smith" none (some "555-000-0001")
        none none none none =
      .ok (⟨[⟨" John", "Smith", some "a@x.com", none, none, none, none, none,
          none, none, none⟩,
        ⟨"John", "Smith", none, some "555-000-0001", none, none, none, none,
          none, none, none⟩]⟩, []) := by
  decide

/-- C2 amended: identity matching in `add` is case-insensitive on the exact
(untrimmed) name pair: whenever the second call's first and last names equal
the first call's after lowercasing only, and no record matched the first
call's key beforehand, the first call appends one record and the second call
merges into an existing record instead of creating a new one. -/
theorem C2_case_insensitive_no_trim (t : Table) (f1 l1 f2 l2 : String)
    (e1 p1 a1 c1 s1 z1 e2 p2 a2 c2 s2 z2 : Option String)
    (h0 : t.records.countP (keyMatches f1 l1) = 0)
    (hf : lowerStr f2 = lowerStr f1) (hl : lowerStr l2 = lowerStr l1) :
    ∃ t1 t2 msgs2,
      t.add f1 l1 e1 p1 a1 c1 s1 z1 = .ok (t1, []) ∧
      t1.records.length = t.records.length + 1 ∧
      t1.add f2 l2 e2 p2 a2 c2 s2 z2 = .ok (t2, msgs2) ∧
      t2.records.length = t1.records.length := by
  have hkey : keyMatches f2 l2 = keyMatches f1 l1 := by
    funext r
    simp [keyMatches, hf, hl]
  have h1 := add_of_no_match t f1 l1 e1 p1 a1 c1 s1 z1 h0
  have hc1 : (Table.mk (t.records ++ [newRecord f1 l1 e1 p1 a1 c1 s1 z1])).records.countP
      (keyMatches f2 l2) = 1 := by
    rw [hkey]
    simp [List.countP_append, h0, List.countP_cons, keyMatches, newRecord]
  have h2 := add_of_one_match _ f2 l2 e2 p2 a2 c2 s2 z2 hc1
  exact ⟨_, _, _, h1, by simp, h2, by simp⟩

/-- C2 witness: the amended statement at the concrete pair of calls from the
spec, John Smith then JOHN SMITH. -/
theorem C2_witness :
    ∃ t1 t2 msgs2,
      (Table.mk []).add "John" "Smith" (some "a@x.com") none none none none none =
        .ok (t1, []) ∧
      t1.records.length = (Table.mk []).records.length + 1 ∧
      t1.add "JOHN" "SMITH" none (some "555-000-0001") none none none none =
        .ok (t2, msgs2) ∧
      t2.records.length = t1.records.length :=
  C2_case_insensitive_no_trim ⟨[]⟩ "John" "Smith" "JOHN" "SMITH"
    (some "a@x.com") none none none none none
    none (some "555-000-0001") none none none none
    (by decide) (by decide) (by decide)

/-- C3: on an `add` call that finds exactly one matching record, a truthy
(present and non-empty) address argument overwrites the four address fields
of that record as one unit with the call's address, city, state and zipcode
arguments regardless of prior contents, while a falsy address argument leaves
all four address fields unchanged. -/
theorem C3_address_overwrite (t : Table) (first last : String)
    (e p a c s z : Option String)
    (h : t.records.countP (keyMatches first last) = 1) :
    ∃ t2 msgs,
      t.add first last e p a c s z = .ok (t2, msgs) ∧
      (truthy a = true →
        (t2.records.getD (t.records.findIdx (keyMatches first last)) default).address = a ∧
        (t2.records.getD (t.records.findIdx (keyMatches first last)) default).city = c ∧
        (t2.records.getD (t.records.findIdx (keyMatches first last)) default).state = s ∧
        (t2.records.getD (t.records.findIdx (keyMatches first last)) default).zip = z) ∧
      (truthy a = false →
        (t2.records.getD (t.records.findIdx (keyMatches first last)) default).address =
          (t.records.getD (t.records.findIdx (keyMatches first last)) default).address ∧
        (t2.records.getD (t.records.findIdx (keyMatches first last)) default).city =
          (t.records.getD (t.records.findIdx (keyMatches first last)) default).city ∧
        (t2.records.getD (t.records.findIdx (keyMatches first last)) default).state =
          (t.records.getD (t.records.findIdx (keyMatches first last)) default).state ∧
        (t2.records.getD (t.records.findIdx (keyMatches first last)) default).zip =
          (t.records.getD (t.records.findIdx (keyMatches first last)) default).zip) := by
  rw [add_of_one_match t first last e p a c s z h]
  have hlt : t.records.findIdx (keyMatches first last) < t.records.length :=
    List.findIdx_lt_length_of_exists (exists_match_of_countP_one h)
  refine ⟨_, _, rfl, ?_, ?_⟩ <;> intro ha <;>
    rw [getD_set_self _ _ _ _ hlt] <;> simp [mergeInto, ha]

/-- C3 witness: overwriting the address of a concrete record that had none. -/
theorem C3_witness :
    ∃ t2 msgs,
      (Table.mk [⟨"John", "Smith", none, none, none, none, none, none, none,
        none, none⟩]).add "John" "Smith" none none (some "12 Elm St")
        (some "Springfield") (some "IL") (some "62704") = .ok (t2, msgs) ∧
      (truthy (some "12 Elm St") = true →
        (t2.records.getD ((Table.mk [⟨"John", "Smith", none, none, none, none,
          none, none, none, none, none⟩]).records.findIdx
            (keyMatches "John" "Smith")) default).address = some "12 Elm St" ∧
        (t2.records.getD ((Table.mk [⟨"John", "Smith", none, none, none, none,
          none, none, none, none, none⟩]).records.findIdx
            (keyMatches "John" "Smith")) default).city = some "Springfield" ∧
        (t2.records.getD ((Table.mk [⟨"John", "Smith", none, none, none, none,
          none, none, none, none, none⟩]).records.findIdx
            (keyMatches "John" "Smith")) default).state = some "IL" ∧
        (t2.records.getD ((Table.mk [⟨"John", "Smith", none, none, none, none,
          none, none, none, none, none⟩]).records.findIdx
            (keyMatches "John" "Smith")) default).zip = some "62704") ∧
      (truthy (some "12 Elm St") = false →
        (t2.records.getD ((Table.mk [⟨"John", "Smith", none, none, none, none,
          none, none, none, none, none⟩]).records.findIdx
            (keyMatches "John" "Smith")) default).address =
          ((Table.mk [⟨"John", "Smith", none, none, none, none, none, none,
            none, none, none⟩]).records.getD ((Table.mk [⟨"John", "Smith", none,
            none, none, none, none, none, none, none, none⟩]).records.findIdx
            (keyMatches "John" "Smith")) default).address ∧
        (t2.records.getD ((Table.mk [⟨"John", "Smith", none, none, none, none,
          none, none, none, none, none⟩]).records.findIdx
            (keyMatches "John" "Smith")) default).city =
          ((Table.mk [⟨"John", "Smith", none, none, none, none, none, none,
            none, none, none⟩]).records.getD ((Table.mk [⟨"John", "Smith", none,
            none, none, none, none, none, none, none, none⟩]).records.findIdx
            (keyMatches "John" "Smith")) default).city ∧
        (t2.records.getD ((Table.mk [⟨"John", "Smith", none, none, none, none,
          none, none, none, none, none⟩]).records.findIdx
            (keyMatches "John" "Smith")) default).state =
          ((Table.mk [⟨"John", "Smith", none, none, none, none, none, none,
            none, none, none⟩]).records.getD ((Table.mk [⟨"John", "Smith", none,
            none, none, none, none, none, none, none, none⟩]).records.findIdx
            (keyMatches "John" "Smith")) default).state ∧
        (t2.records.getD ((Table.mk [⟨"John", "Smith", none, none, none, none,
          none, none, none, none, none⟩]).records.findIdx
            (keyMatches "John" "Smith")) default).zip =
          ((Table.mk [⟨"John", "Smith", none, none, none, none, none, none,
            none, none, none⟩]).records.getD ((Table.mk [⟨"John", "Smith", none,
            none, none, none, none, none, none, none, none⟩]).records.findIdx
            (keyMatches "John" "Smith")) default).zip) :=
  C3_address_overwrite _ "John" "Smith" none none (some "12 Elm St")
    (some "Springfield") (some "IL") (some "62704") (by decide)

/-- C4: when two or more existing records match the call's identity key,
`add` raises the duplicate-identity `ValueError` naming the person; in this
functional embedding the error return carries no table, so no record is
modified and the caller's record set is left as it was. -/
theorem C4_duplicate_identity_fatal (t : Table) (first last : String)
    (e p a c s z : Option String)
    (h : 2 ≤ t.records.countP (keyMatches first last)) :
    t.add first last e p a c s z =
      .error (.valueError ("multiple entries exist for " ++ first ++ " " ++ last)) :=
  add_of_many_matches t first last e p a c s z (by omega)

/-- C4 witness: two case-insensitively equal records make `add` fail. -/
theorem C4_witness :
    (Table.mk [⟨"John", "Smith", none, none, none, none, none, none, none, none,
      none⟩, ⟨"JOHN", "SMITH", none, none, none, none, none, none, none, none,
      none⟩]).add "john" "smith" none none none none none none =
      .error (.valueError ("multiple entries exist for " ++ "john" ++ " " ++ "smith")) :=
  C4_duplicate_identity_fatal _ "john" "smith" none none none none none none
    (by decide)

/-- C7: a successful `add` call never clears or replaces a contact channel
slot (primary or alternate, email or phone) that already holds a truthy
value: for every pre-existing record position, a slot holding a non-empty
value before the call holds the same value after it. -/
theorem C7_slots_never_overwritten (t t2 : Table) (first last : String)
    (e p a c s z : Option String) (msgs : List String)
    (h : t.add first last e p a c s z = .ok (t2, msgs))
    (i : Nat) (hi : i < t.records.length) :
    (truthy (t.records.getD i default).email = true →
      (t2.records.getD i default).email = (t.records.getD i default).email) ∧
    (truthy (t.records.getD i default).altEmail = true →
      (t2.records.getD i default).altEmail = (t.records.getD i default).altEmail) ∧
    (truthy (t.records.getD i default).phone = true →
      (t2.records.getD i default).phone = (t.records.getD i default).phone) ∧
    (truthy (t.records.getD i default).altPhone = true →
      (t2.records.getD i default).altPhone = (t.records.getD i default).altPhone) := by
  by_cases h0 : t.records.countP (keyMatches first last) = 0
  · rw [add_of_no_match _ _ _ _ _ _ _ _ _ h0] at h
    simp only [Except.ok.injEq, Prod.mk.injEq] at h
    obtain ⟨h2, h3⟩ := h
    subst h2
    have hg := List.getD_append t.records [newRecord first last e p a c s z] default i hi
    rw [hg]
    simp
  · by_cases h1 : t.records.countP (keyMatches first last) = 1
    · rw [add_of_one_match _ _ _ _ _ _ _ _ _ h1] at h
      simp only [Except.ok.injEq, Prod.mk.injEq] at h
      obtain ⟨h2, h3⟩ := h
      subst h2
      by_cases hij : t.records.findIdx (keyMatches first last) = i
      · subst hij
        rw [getD_set_self _ _ _ _
          (List.findIdx_lt_length_of_exists (exists_match_of_countP_one h1))]
        rw [mergeInto_email, mergeInto_altEmail, mergeInto_phone, mergeInto_altPhone]
        exact ⟨(mergeSlot_keeps _ _ _ _).1, (mergeSlot_keeps _ _ _ _).2,
          (mergeSlot_keeps _ _ _ _).1, (mergeSlot_keeps _ _ _ _).2⟩
      · rw [getD_set_ne _ _ _ _ _ hij]
        simp
    · rw [add_of_many_matches _ _ _ _ _ _ _ _ _ (by omega)] at h
      simp at h

/-- C7 witness: an `add` carrying a different email fills the alternate slot
and leaves the held primary email and phone of the concrete record intact. -/
theorem C7_witness :
    (truthy ((Table.mk [⟨"John", "Smith", some "a@x.com", some "111", none, none,
        none, none, none, none, none⟩]).records.getD 0 default).email = true →
      ((Table.mk [⟨"John", "Smith", some "a@x.com", some "111", none, none, none,
        none, none, some "b@x.com", none⟩]).records.getD 0 default).email =
      ((Table.mk [⟨"John", "Smith", some "a@x.com", some "111", none, none, none,
        none, none, none, none⟩]).records.getD 0 default).email) ∧
    (truthy ((Table.mk [⟨"John", "Smith", some "a@x.com", some "111", none, none,
        none, none, none, none, none⟩]).records.getD 0 default).altEmail = true →
      ((Table.mk [⟨"John", "Smith", some "a@x.com", some "111", none, none, none,
        none, none, some "b@x.com", none⟩]).records.getD 0 default).altEmail =
      ((Table.mk [⟨"John", "Smith", some "a@x.com", some "111", none, none, none,
        none, none, none, none⟩]).records.getD 0 default).altEmail) ∧
    (truthy ((Table.mk [⟨"John", "Smith", some "a@x.com", some "111", none, none,
        none, none, none, none, none⟩]).records.getD 0 default).phone = true →
      ((Table.mk [⟨"John", "Smith", some "a@x.com", some "111", none, none, none,
        none, none, some "b@x.com", none⟩]).records.getD 0 default).phone =
      ((Table.mk [⟨"John", "Smith", some "a@x.com", some "111", none, none, none,
        none, none, none, none⟩]).records.getD 0 default).phone) ∧
    (truthy ((Table.mk [⟨"John", "Smith", some "a@x.com", some "111", none, none,
        none, none, none, none, none⟩]).records.getD 0 default).altPhone = true →
      ((Table.mk [⟨"John", "Smith", some "a@x.com", some "111", none, none, none,
        none, none, some "b@x.com", none⟩]).records.getD 0 default).altPhone =
      ((Table.mk [⟨"John", "Smith", some "a@x.com", some "111", none, none, none,
        none, none, none, none⟩]).records.getD 0 default).altPhone) :=
  C7_slots_never_overwritten
    (Table.mk [⟨"John", "Smith", some "a@x.com", some "111", none, none, none,
      none, none, none, none⟩])
    (Table.mk [⟨"John", "Smith", some "a@x.com", some "111", none, none, none,
      none, none, some "b@x.com", none⟩])
    "John" "Smith" (some "b@x.com") none none none none none []
    (by decide) 0 (by decide)

/-- C8: an `add` call for an identity with exactly one matching record, whose
email argument is absent or already held in the record's primary or alternate
email slot, and likewise for the phone argument, with no address argument,
returns the record set unchanged and prints no conflict message. -/
theorem C8_duplicate_value_idempotent (t : Table) (first last : String)
    (e p : Option String) (r : Record)
    (h1 : t.records.countP (keyMatches first last) = 1)
    (hr : t.records.getD (t.records.findIdx (keyMatches first last)) default = r)
    (he : truthy e = false ∨ r.email = e ∨ (truthy r.email = true ∧ r.altEmail = e))
    (hp : truthy p = false ∨ r.phone = p ∨ (truthy r.phone = true ∧ r.altPhone = p)) :
    t.add first last e p none none none none = .ok (t, []) := by
  rw [add_of_one_match _ _ _ _ _ _ _ _ _ h1, hr, mergeInto_noop r first last e p he hp]
  rw [← hr, set_getD_self]

/-- C8 witness: re-adding the already-held email of a concrete record leaves
the table unchanged with no conflict message. -/
theorem C8_witness :
    (Table.mk [⟨"John", "Smith", some "a@x.com", some "111", none, none, none,
      none, none, none, none⟩]).add "John" "Smith" (some "a@x.com") none
      none none none none =
      .ok (Table.mk [⟨"John", "Smith", some "a@x.com", some "111", none, none,
        none, none, none, none, none⟩], []) :=
  C8_duplicate_value_idempotent _ "John" "Smith" (some "a@x.com") none
    ⟨"John", "Smith", some "a@x.com", some "111", none, none, none, none, none,
      none, none⟩
    (by decide) (by decide) (by decide) (by decide)

/-!  Claim C10.  -/

/-- C10: address extraction from a row succeeds exactly under the implicit
column-completeness precondition: every address column containing a `1` must
have its companion column (the name with `1` replaced by `2`), and every
discovered address group must find its four same-prefix part columns (street
via the combined or plain address column, city, state, zipcode) among the
row's columns; when the precondition fails, `add_addresses` fails with a
key-lookup error instead of emitting a partial address group or skipping the
group.  The name cells must resolve, the table must hold at most one match
for the identity (otherwise `add` itself is the fatal error), and the
companion names are assumed distinct from the stripped street names (true of
every real header; it rules out pathological names whose outcome would depend
on Python's set iteration order). -/
theorem C10_address_completeness (row : Row) (t : Table) (f l : String)
    (hf : rowGet row "first name" = .ok f) (hl : rowGet row "last name" = .ok l)
    (hdisj : ∀ n ∈ onesOf row, ∀ m ∈ onesOf row,
      replaceChar '1' '2' n ≠ stripChars [' ', '1'] m)
    (hinv : t.records.countP (keyMatches f l) ≤ 1) :
    (addressComplete row = true → ∃ t2 msgs, add_addresses row t = .ok (t2, msgs)) ∧
    (addressComplete row = false → ∃ k, add_addresses row t = .error (.keyError k)) := by
  have hmemNames : ∀ n ∈ (rowKeys row).filter (fun x => strContains "address" x),
      hasKey row n = true := fun n hn =>
    (hasKey_iff_mem _ _).mpr (List.mem_of_mem_filter hn)
  constructor
  · intro hcompl
    rw [addressComplete, Bool.and_eq_true] at hcompl
    obtain ⟨h1, h2⟩ := hcompl
    rw [List.all_eq_true] at h1
    rw [List.all_eq_true] at h2
    obtain ⟨row2, heq, hkeys⟩ := combineLines_ok
      ((rowKeys row).filter (fun x => strContains "address" x)) row hmemNames
      (fun n hn hc => h1 n (List.mem_filter.mpr ⟨hn, hc⟩))
    have hkeys2 : ∀ g ∈ groupsOf row, ∀ k ∈ groupCols g, hasKey row2 k = true := by
      intro g hg k hk
      have hcontains := h2 g hg
      rw [List.all_eq_true] at hcontains
      have hmem : k ∈ combinedKeys row := by
        have := hcontains k hk
        simpa using this
      rw [hkeys k]
      rw [combinedKeys] at hmem
      rcases List.mem_append.mp hmem with hmm | hmm
      · exact Or.inl ((hasKey_iff_mem _ _).mpr hmm)
      · exact Or.inr hmm
    obtain ⟨t2, msgs2, hok⟩ := emitGroups_ok row2 f l (groupsOf row) t [] hkeys2 hinv
    refine ⟨t2, msgs2, ?_⟩
    simp only [add_addresses, hf, hl, heq]
    exact hok
  · intro hincompl
    by_cases h1 : (onesOf row).all (fun n => hasKey row (replaceChar '1' '2' n)) = true
    · have h2 : (groupsOf row).all
          (fun g => (groupCols g).all (fun k => (combinedKeys row).contains k)) = false := by
        rw [addressComplete, h1] at hincompl
        simpa using hincompl
      rw [List.all_eq_true] at h1
      obtain ⟨row2, heq, hkeys⟩ := combineLines_ok
        ((rowKeys row).filter (fun x => strContains "address" x)) row hmemNames
        (fun n hn hc => h1 n (List.mem_filter.mpr ⟨hn, hc⟩))
      rw [List.all_eq_false] at h2
      obtain ⟨g, hg, hgf⟩ := h2
      rw [Bool.not_eq_true, List.all_eq_false] at hgf
      obtain ⟨k, hk, hkf⟩ := hgf
      have hkf2 : hasKey row2 k = false := by
        rw [Bool.eq_false_iff]
        intro hcon
        apply hkf
        rcases (hkeys k).mp hcon with hmm | hmm
        · have : k ∈ combinedKeys row :=
            List.mem_append.mpr (Or.inl ((hasKey_iff_mem _ _).mp hmm))
          simpa using this
        · have : k ∈ combinedKeys row := List.mem_append.mpr (Or.inr hmm)
          simpa using this
      obtain ⟨k2, hk2⟩ := emitGroups_err row2 f l (groupsOf row) t [] hinv
        ⟨g, hg, k, hk, hkf2⟩
      refine ⟨k2, ?_⟩
      simp only [add_addresses, hf, hl, heq]
      exact hk2
    · have h1f : ∃ n ∈ onesOf row, hasKey row (replaceChar '1' '2' n) = false := by
        have hfalse : (onesOf row).all
            (fun n => hasKey row (replaceChar '1' '2' n)) = false :=
          Bool.eq_false_iff.mpr h1
        rw [List.all_eq_false] at hfalse
        obtain ⟨n, hn, hnf⟩ := hfalse
        exact ⟨n, hn, by simpa using hnf⟩
      obtain ⟨n, hn, hnf⟩ := h1f
      obtain ⟨k, hk⟩ := combineLines_err
        ((rowKeys row).filter (fun x => strContains "address" x)) row hmemNames
        (fun x hx y hy hcx hcy => hdisj x (List.mem_filter.mpr ⟨hx, hcx⟩)
          y (List.mem_filter.mpr ⟨hy, hcy⟩))
        ⟨n, List.mem_of_mem_filter hn, (List.mem_filter.mp hn).2, hnf⟩
      refine ⟨k, ?_⟩
      simp only [add_addresses, hf, hl, hk]

/-- C10 witness: a concrete row with a prefixed address-line pair and its
companion city, state and zipcode columns satisfies the precondition, and the
theorem yields the success and failure implications at that row. -/
theorem C10_witness :
    (addressComplete [("first name", "Jo"), ("last name", "Li"),
        ("billing address 1", "12 Elm"), ("billing address 2", "Apt 4"),
        ("billing city", "X"), ("billing state", "Y"),
        ("billing zipcode", "Z")] = true →
      ∃ t2 msgs, add_addresses [("first name", "Jo"), ("last name", "Li"),
        ("billing address 1", "12 Elm"), ("billing address 2", "Apt 4"),
        ("billing city", "X"), ("billing state", "Y"),
        ("billing zipcode", "Z")] (Table.mk []) = .ok (t2, msgs)) ∧
    (addressComplete [("first name", "Jo"), ("last name", "Li"),
        ("billing address 1", "12 Elm"), ("billing address 2", "Apt 4"),
        ("billing city", "X"), ("billing state", "Y"),
        ("billing zipcode", "Z")] = false →
      ∃ k, add_addresses [("first name", "Jo"), ("last name", "Li"),
        ("billing address 1", "12 Elm"), ("billing address 2", "Apt 4"),
        ("billing city", "X"), ("billing state", "Y"),
        ("billing zipcode", "Z")] (Table.mk []) = .error (.keyError k)) :=
  C10_address_completeness
    [("first name", "Jo"), ("last name", "Li"),
      ("billing address 1", "12 Elm"), ("billing address 2", "Apt 4"),
      ("billing city", "X"), ("billing state", "Y"), ("billing zipcode", "Z")]
    (Table.mk []) "Jo" "Li" (by decide) (by decide) (by decide) (by decide)

end ExtractContactInfo
